import Mathlib

/-
Verification of the gifception frame-synthesis engine (gifception.py).

Modelling conventions:
* Python float arithmetic is modelled by exact rationals (ℚ).
* In-place mutation of image objects is modelled functionally: each operation
  returns the updated value; fallible operations return `Except PyErr`.
* Pixel content is symbolic (`ImgContent`): resample/crop/paste record the
  operation applied, since actual resampling is outside the model.
* Pillow behaviour relied upon by the source: `Image.resize` raises
  `ValueError` when a target dimension is below 1 (the source's own comment in
  `prepare_nested_base` depends on this), `Image.crop` raises `ValueError` on
  an inverted box and rounds coordinates, `Image.paste` clips and never fails.
-/

set_option maxHeartbeats 1000000

/-- Mathematical ceiling on ℚ, written through `Rat.floor` so that the kernel
can evaluate it. -/
def pyCeil (q : ℚ) : ℤ := -(Rat.floor (-q))

/-- Python `int()` applied to a float: truncation toward zero. -/
def pyInt (q : ℚ) : ℤ := if 0 ≤ q then q.floor else pyCeil q

/-- Python `round()` applied to a float: round half to even. -/
def pyRound (q : ℚ) : ℤ :=
  let f : ℤ := q.floor
  let r : ℚ := q - f
  if r < 1/2 then f
  else if (1 : ℚ)/2 < r then f + 1
  else if f % 2 = 0 then f else f + 1

/-- Symbolic pixel content of a raster: each geometric operation is recorded
as an opaque term, since resampling itself is outside the model. -/
inductive ImgContent
| base (id : ℕ)
| resized (c : ImgContent) (w h : ℕ)
| cropped (c : ImgContent) (x0 y0 x1 y1 : ℤ)
| pasted (dst src : ImgContent) (ox oy : ℤ)
deriving DecidableEq, Repr

/-- A PIL raster image: width, height and symbolic pixel content. -/
structure PILImage where
  width : ℕ
  height : ℕ
  content : ImgContent
deriving DecidableEq, Repr

/-- Python exceptions arising in the modelled code. `limitValue`,
`resizeValue`, `cropValue` and `anchorValue` are `ValueError`s. -/
inductive PyErr
| limitValue (npx reported : ℚ)
| resizeValue
| cropValue
| anchorValue (x y : ℚ)
| gifceptionError (msg : String)
| attributeError (missing : String)
| nameError (missing : String)
| typeError (msg : String)
deriving DecidableEq, Repr

/-- Pillow `Image.resize`: fails when a target dimension is below 1. -/
def PILImage.resize (img : PILImage) (w h : ℤ) : Except PyErr PILImage :=
  if w < 1 ∨ h < 1 then .error .resizeValue
  else .ok ⟨w.toNat, h.toNat, .resized img.content w.toNat h.toNat⟩

/-- Pillow `Image.crop`: fails on an inverted box, rounds coordinates. -/
def PILImage.crop (img : PILImage) (box : ℚ × ℚ × ℚ × ℚ) : Except PyErr PILImage :=
  let l := box.1
  let t := box.2.1
  let r := box.2.2.1
  let b := box.2.2.2
  if r < l ∨ b < t then .error .cropValue
  else
    let x0 := pyRound l
    let y0 := pyRound t
    let x1 := pyRound r
    let y1 := pyRound b
    .ok ⟨(x1 - x0).toNat, (y1 - y0).toNat, .cropped img.content x0 y0 x1 y1⟩

/-- Pillow `Image.copy`: a fresh buffer with the same content. -/
def PILImage.copy (img : PILImage) : PILImage := ⟨img.width, img.height, img.content⟩

/-- Configuration record of an `AnchoredImage`. -/
structure AIConfig where
  max_pixels : ℚ
  resampler : ℕ
deriving DecidableEq, Repr

/-- An anchored image: a raster plus a relative anchor and a config. -/
structure AnchoredImage where
  img : PILImage
  rel_anchor : ℚ × ℚ
  config : AIConfig
deriving DecidableEq, Repr

/-- Source `AnchoredImage._default_config`: `max_pixels` 8e8 and `Image.BICUBIC`
(filter id 3). -/
def AnchoredImage.default_config : AIConfig := ⟨800000000, 3⟩

/-- Source `AnchoredImage.size`. -/
def AnchoredImage.size (a : AnchoredImage) : ℕ × ℕ := (a.img.width, a.img.height)

/-- Source `AnchoredImage.scale`: checks the pixel budget, then resizes in place.
`max_pixels_arg` models the optional `max_pixels` parameter; Python's
`max_pixels or self.config["max_pixels"]` falls back to the config both for
`None` and for a falsy `0`. The budget check compares `npx` against
`self.config["max_pixels"]`, while the raised message reports the local
`max_pixels`. -/
def AnchoredImage.scale (a : AnchoredImage) (factor : ℚ) (max_pixels_arg : Option ℚ) :
    Except PyErr AnchoredImage :=
  let max_pixels : ℚ :=
    match max_pixels_arg with
    | none => a.config.max_pixels
    | some m => if m = 0 then a.config.max_pixels else m
  let w : ℚ := a.img.width
  let h : ℚ := a.img.height
  let npx : ℚ := w * h * factor ^ 2
  if npx > a.config.max_pixels ∧ a.config.max_pixels > 0 then
    .error (.limitValue npx max_pixels)
  else do
    let r ← a.img.resize (pyInt (w * factor)) (pyInt (h * factor))
    .ok { a with img := r }

/-- Source `AnchoredImage._zoom_in_box`: corners and crop box for a zoom-in. With
`rounding` the four coordinates go through Python `round`. -/
def AnchoredImage.zoom_in_box (a : AnchoredImage) (factor : ℚ) (rounding : Bool) :
    ((ℚ × ℚ) × (ℚ × ℚ)) × (ℚ × ℚ × ℚ × ℚ) :=
  let w : ℚ := a.img.width
  let h : ℚ := a.img.height
  let ws := w / factor
  let hs := h / factor
  let rel_x := a.rel_anchor.1
  let rel_y := a.rel_anchor.2
  let ox := rel_x * w * (1 - 1 / factor)
  let oy := rel_y * h * (1 - 1 / factor)
  let v : ℚ × ℚ × ℚ × ℚ :=
    if rounding then ((pyRound ox : ℚ), (pyRound oy : ℚ), (pyRound ws : ℚ), (pyRound hs : ℚ))
    else (ox, oy, ws, hs)
  let ox' := v.1
  let oy' := v.2.1
  let ws' := v.2.2.1
  let hs' := v.2.2.2
  (((ox', oy'), (ox' + ws', oy' + hs')), (ox', oy', ox' + ws', oy' + hs'))

/-- Source `AnchoredImage.zoom_in`: crop to the zoom box, then resize back to the
original size. -/
def AnchoredImage.zoom_in (a : AnchoredImage) (factor : ℚ) : Except PyErr AnchoredImage := do
  let box := (a.zoom_in_box factor true).2
  let c ← a.img.crop box
  let r ← c.resize (a.img.width : ℤ) (a.img.height : ℤ)
  .ok { a with img := r }

/-- Source `AnchoredImage.anchor_absolute`. -/
def AnchoredImage.anchor_absolute (a : AnchoredImage) : ℚ × ℚ :=
  ((a.img.width : ℚ) * a.rel_anchor.1, (a.img.height : ℚ) * a.rel_anchor.2)

/-- Source `AnchoredImage.get_anchor_absolute` (duplicate accessor in the source). -/
def AnchoredImage.get_anchor_absolute (a : AnchoredImage) : ℚ × ℚ :=
  (a.rel_anchor.1 * (a.img.width : ℚ), a.rel_anchor.2 * (a.img.height : ℚ))

/-- Source `AnchoredImage.set_anchor_absolute`. The source checks only
`x > w or y > h` and then `return`s (not raises) a `ValueError` object; the
second component of the result is that returned value — no exception is ever
raised by this method. -/
def AnchoredImage.set_anchor_absolute (a : AnchoredImage) (p : ℚ × ℚ) :
    AnchoredImage × Option PyErr :=
  let x := p.1
  let y := p.2
  let w : ℚ := a.img.width
  let h : ℚ := a.img.height
  if x > w ∨ y > h then (a, some (.anchorValue x y))
  else ({ a with rel_anchor := (x / w, y / h) }, none)

/-- Source `AnchoredImage.paste`: Pillow pastes clip, so geometry is unchanged and
only content is affected. -/
def AnchoredImage.paste (a : AnchoredImage) (src : PILImage) (box : ℤ × ℤ) : AnchoredImage :=
  { a with img := ⟨a.img.width, a.img.height, .pasted a.img.content src.content box.1 box.2⟩ }

/-- Source `AnchoredImage.paste_aligned`: paste `b` at the ceiling of the anchor
difference, so the two anchors coincide. -/
def AnchoredImage.paste_aligned (a b : AnchoredImage) : AnchoredImage :=
  let ax := a.get_anchor_absolute.1
  let ay := a.get_anchor_absolute.2
  let bx := b.get_anchor_absolute.1
  let by' := b.get_anchor_absolute.2
  a.paste b.img (pyCeil (ax - bx), pyCeil (ay - by'))

/-- Source `AnchoredImage.__deepcopy__`: copies the buffer, keeps `rel_anchor`, and —
because the constructor is called without a config — resets the config to the
default one. -/
def AnchoredImage.deepcopy (a : AnchoredImage) : AnchoredImage :=
  ⟨a.img.copy, a.rel_anchor, AnchoredImage.default_config⟩

/-- Sample 10 by 10 anchored image with the default centered anchor. -/
def sampleImage10 : AnchoredImage :=
  ⟨⟨10, 10, .base 0⟩, (mkRat 1 2, mkRat 1 2), AnchoredImage.default_config⟩

/-- The image `sampleImage10` after `scale 2`. -/
def sampleImage10Scaled : AnchoredImage :=
  ⟨⟨20, 20, .resized (.base 0) 20 20⟩, (mkRat 1 2, mkRat 1 2), AnchoredImage.default_config⟩

/-- Sample anchored image whose configured pixel budget is only 50. -/
def sampleSmallLimit : AnchoredImage :=
  ⟨⟨10, 10, .base 0⟩, (mkRat 1 2, mkRat 1 2), ⟨50, 3⟩⟩

/-- Decimal digits of `n`, most significant first; empty for 0 (as in
`Nat.digits`), which zero-padding turns into the same "00000" Python
produces. -/
def decDigits (n : ℕ) : List ℕ := (Nat.digits 10 n).reverse

/-- The character of a single decimal digit. -/
def digitChar (d : ℕ) : Char := Char.ofNat (48 + d)

/-- Zero-pad a digit string on the left to width 5, as Python `{:05d}`. -/
def pad5 (ds : List ℕ) : List ℕ := List.replicate (5 - ds.length) 0 ++ ds

/-- The frame file name written by `make_frame`:
Python `f"frame-{nframe:05d}.png"`. -/
def frameFileName (n : ℕ) : String :=
  ⟨"frame-".data ++ (pad5 (decDigits n)).map digitChar ++ ".png".data⟩

/-- Value of a most-significant-first digit string. -/
def decodeDigits (ds : List ℕ) : ℕ := Nat.ofDigits 10 ds.reverse

/-- Source `Gifception._default_config`. -/
structure GFConfig where
  max_pixels : ℚ
  num_processes : ℕ
deriving DecidableEq, Repr

/-- Source `Gifception._default_params`. -/
structure GFParams where
  preup : ℚ
  inner_scale : ℚ
  downscale : ℚ
  num_frames : ℕ
  fps : ℚ
  paste_within : Bool
deriving DecidableEq, Repr

/-- Default orchestrator config. -/
def Gifception.default_config : GFConfig := ⟨800000000, 1⟩

/-- Default animation params. -/
def Gifception.default_params : GFParams := ⟨2, 4, 2, 120, 60, true⟩

/-- Source `FrameWorker.make_frame`: renders and names one frame. The source
computes `mz = (inner_scale ** (1/(num_frames-1))) ** (nframe-1)`, an
irrational real; `mz` is therefore a parameter here, and the results below are
proved for the whole interval it ranges over. The `paste_within` block is the
source's `try: ... except ValueError: pass`: all exceptions its operations can
raise are `ValueError`s, so a failure simply keeps the un-pasted frame. -/
def make_frame (nested_base : AnchoredImage) (params : GFParams) (nframe : ℕ) (mz : ℚ) :
    Except PyErr (AnchoredImage × String) := do
  let frame0 := nested_base.deepcopy
  let frame1 ← frame0.zoom_in mz
  let frame2 :=
    if params.paste_within then
      match (do
        let smaller := nested_base.deepcopy
        let smaller2 ← smaller.scale (mz / params.inner_scale) none
        Except.ok (frame1.paste_aligned smaller2) : Except PyErr AnchoredImage) with
      | .ok f2 => f2
      | .error _ => frame1
    else frame1
  let frame3 ← frame2.scale (1 / params.downscale) none
  .ok (frame3, frameFileName nframe)

/-- State of the nested-base growth loop in `prepare_nested_base`. -/
structure NestSt where
  nested : AnchoredImage
  mini : AnchoredImage
  true_scale : ℚ
deriving DecidableEq, Repr

/-- One committed round of the growth loop: the paste, then the `mini`
rescale; `none` when the rescale raises (the loop's `except ValueError`). -/
def nestRound (s : ℚ) (st : NestSt) : Option NestSt :=
  let nested' := st.nested.paste_aligned st.mini
  match st.mini.scale s none with
  | .error _ => none
  | .ok mini' => some ⟨nested', mini', st.true_scale * s⟩

/-- Runs `k` committed rounds of the growth loop. -/
def nestRounds (s : ℚ) : ℕ → NestSt → Option NestSt
  | 0, st => some st
  | k+1, st =>
    match nestRound s st with
    | none => none
    | some st' => nestRounds s k st'

/-- The `while True` growth loop of `prepare_nested_base`: paste `mini` onto
`nested`, shrink `mini` by `s`, stop when the shrink raises `ValueError`. The
paste of the failing iteration has already been committed when the loop
breaks, exactly as in the source, and the failing `scale` leaves everything
else untouched. Termination: every successful shrink strictly decreases
`mini`'s width (it needs `s < 1`, which `prepare_nested_base` guarantees). -/
def nestLoop (s : ℚ) (hs : s < 1) (st : NestSt) : NestSt :=
  match hm : nestRound s st with
  | none => ⟨st.nested.paste_aligned st.mini, st.mini, st.true_scale⟩
  | some st' => nestLoop s hs st'
termination_by st.mini.img.width
decreasing_by
  simp only [nestRound] at hm
  cases hsc : st.mini.scale s none with
  | error e =>
    rw [hsc] at hm
    simp at hm
  | ok mini' =>
    rw [hsc] at hm
    simp only [Option.some.injEq] at hm
    cases hm
    simp only [AnchoredImage.scale, PILImage.resize, Bind.bind, Except.bind] at hsc
    split_ifs at hsc with h1 h2
    simp only [Except.ok.injEq] at hsc
    have hfl : ∀ r : ℚ, r.floor = ⌊r⌋ := fun r => by rw [Rat.floor_def', Rat.floor_def]
    push_neg at h2
    obtain ⟨hw1, -⟩ := h2
    have hq0 : (0 : ℚ) ≤ (st.mini.img.width : ℚ) * s := by
      by_contra hq
      push_neg at hq
      rw [pyInt, if_neg (not_le.mpr hq), pyCeil, hfl, Int.floor_neg, neg_neg] at hw1
      have hc0 : ⌈(st.mini.img.width : ℚ) * s⌉ ≤ 0 :=
        Int.ceil_le.mpr (by exact_mod_cast hq.le)
      omega
    have hpy : pyInt ((st.mini.img.width : ℚ) * s) = ⌊(st.mini.img.width : ℚ) * s⌋ := by
      rw [pyInt, if_pos hq0, hfl]
    rw [hpy] at hw1
    have hwpos : 0 < st.mini.img.width := by
      by_contra hw0
      push_neg at hw0
      have hz : st.mini.img.width = 0 := by omega
      rw [hz] at hw1
      norm_num at hw1
    have hlt : ⌊(st.mini.img.width : ℚ) * s⌋ < (st.mini.img.width : ℤ) := by
      have hql : (st.mini.img.width : ℚ) * s < (st.mini.img.width : ℚ) := by
        have hwq : (0 : ℚ) < (st.mini.img.width : ℚ) := by exact_mod_cast hwpos
        exact mul_lt_of_lt_one_right hwq hs
      exact Int.floor_lt.mpr (by exact_mod_cast hql)
    have hge : (0 : ℤ) ≤ ⌊(st.mini.img.width : ℚ) * s⌋ := Int.floor_nonneg.mpr hq0
    rw [← hsc]
    simp only []
    rw [hpy]
    omega

/-- Source `Gifception.prepare_nested_base`: deep-copy the base, pre-upscale it,
build the shrunken `mini`, then run the growth loop. Both initial `scale`
calls may raise, and those errors propagate (only the loop catches). The
proof argument carries `1/inner_scale < 1`, which holds whenever
`inner_scale > 1` (all uses have `inner_scale ≥ 4`). -/
def prepare_nested_base (base_image : AnchoredImage) (params : GFParams)
    (hs : 1 / params.inner_scale < 1) : Except PyErr NestSt := do
  let nested ← (base_image.deepcopy).scale params.preup none
  let mini ← (base_image.deepcopy).scale (params.preup * (1 / params.inner_scale)) none
  .ok (nestLoop (1 / params.inner_scale) hs ⟨nested, mini, 1 / params.inner_scale⟩)

/-- State of the frame worker pool: the task queue contents, the number of
still-running workers, the set of frame files written so far, and the result
queue contents. Pops are FIFO from the shared queue, so whichever worker acts
next consumes the head; worker identity is irrelevant to this state. -/
structure PoolState where
  qin : List (Option ℕ)
  running : ℕ
  files : Multiset String
  qout : Multiset (Option ℕ)

/-- One scheduler step of the pool: a running worker pops the queue head.
On a frame index it renders and writes `frame-NNNNN.png` (the name
`make_frame` uses) and reports the index on the result queue; on a `None`
stop marker it forwards a `None` and terminates. -/
inductive PoolStep : PoolState → PoolState → Prop
| frame (i : ℕ) (rest : List (Option ℕ)) (run : ℕ) (w : Multiset String)
    (out : Multiset (Option ℕ)) :
    PoolStep ⟨some i :: rest, run + 1, w, out⟩
      ⟨rest, run + 1, frameFileName i ::ₘ w, some i ::ₘ out⟩
| stop (rest : List (Option ℕ)) (run : ℕ) (w : Multiset String)
    (out : Multiset (Option ℕ)) :
    PoolStep ⟨none :: rest, run + 1, w, out⟩ ⟨rest, run, w, none ::ₘ out⟩

/-- Initial pool state from `start_making_frames`: the task queue is
pre-loaded with `1..num_frames` followed by one `None` per worker, and all
`num_processes` workers are running. -/
def poolInit (nf nt : ℕ) : PoolState :=
  ⟨(List.range' 1 nf).map some ++ List.replicate nt none, nt, 0, 0⟩

/-- Invariant of the pool: `k` frames have been consumed so far; stop markers
are consumed only after every frame, each one retiring one worker. -/
def PoolInv (nf nt : ℕ) (s : PoolState) : Prop :=
  ∃ k, k ≤ nf ∧
    s.qin = (List.range' (k + 1) (nf - k)).map some ++ List.replicate s.running none ∧
    s.files = ((List.range' 1 k).map frameFileName : List String) ∧
    s.qout = (((List.range' 1 k).map some : List (Option ℕ)) : Multiset (Option ℕ)) +
      Multiset.replicate (nt - s.running) none ∧
    s.running ≤ nt ∧ (k < nf → s.running = nt)

/-- Python attribute that `__init__` may have left unset. -/
inductive PyAttr (α : Type)
| unset
| val (a : α)
deriving DecidableEq, Repr

/-- Inputs acceptable (or not) to `Gifception.load_image`. -/
inductive ImgInput
| pil (img : PILImage)
| anchored (a : AnchoredImage)
| other
deriving DecidableEq, Repr

/-- The `Gifception` orchestrator state after construction. `qin` is a real
Python attribute only once `start_making_frames` assigns it; `__init__` does
not, which `PyAttr.unset` records. When set, it carries the pool state the
queues have reached by the time they are inspected. -/
structure Gifception where
  base_image : AnchoredImage
  config : GFConfig
  params : GFParams
  nested_base : Option AnchoredImage
  frame_workers : ℕ
  qin : PyAttr (Option PoolState)

/-- Source `Gifception.load_image`: the `Image.Image` branch reads the undefined
name `imge` (a typo for `img`), so it raises `NameError` instead of wrapping
the image; the `AnchoredImage` branch stores the image; anything else raises
`TypeError`. -/
def Gifception.load_image (inp : ImgInput) : Except PyErr AnchoredImage :=
  match inp with
  | .pil _ => .error (.nameError "imge")
  | .anchored a => .ok a
  | .other => .error (.typeError "Need an Image or AnchoredImage")

/-- Source `Gifception.__init__`: loads the image, fills config/params (Python
`config or copy(default)`), leaves `nested_base = None`, `frame_workers`
empty — and never assigns `self.qin`. -/
def Gifception.init (inp : ImgInput) (config : Option GFConfig)
    (params : Option GFParams) : Except PyErr Gifception := do
  let b ← Gifception.load_image inp
  let cfg := match config with
    | none => Gifception.default_config
    | some c => c
  let prm := match params with
    | none => Gifception.default_params
    | some p => p
  .ok ⟨b, cfg, prm, none, 0, .unset⟩

/-- Source `Gifception.wait_for_frames`: reads `self.qin` first — an attribute that
`__init__` never set, so before any `start_making_frames` this lookup raises
`AttributeError`, not the intended `GifceptionException` of the dead
`if self.qin is None` guard. Once a run exists, it joins the workers and then
checks that the task queue is drained and that the result queue holds
`num_processes + num_frames` items. -/
def Gifception.wait_for_frames (g : Gifception) : Except PyErr Unit :=
  match g.qin with
  | .unset => .error (.attributeError "qin")
  | .val none => .error (.gifceptionError "No frame-generating process was ever started")
  | .val (some s) =>
    if ¬s.qin.isEmpty then .error (.gifceptionError "Not all frames were consumed")
    else if Multiset.card s.qout ≠ g.config.num_processes + g.params.num_frames then
      .error (.gifceptionError "Not all frames were produced")
    else .ok ()

/-- Heap of pixel buffers, for stating object-identity facts about
`__deepcopy__`. -/
structure ImgStore where
  bufs : List PILImage

/-- Read a buffer. -/
def ImgStore.read (s : ImgStore) (r : ℕ) : PILImage := s.bufs.getD r ⟨0, 0, .base 0⟩

/-- Overwrite (mutate) a buffer in place. -/
def ImgStore.write (s : ImgStore) (r : ℕ) (img : PILImage) : ImgStore :=
  ⟨s.bufs.set r img⟩

/-- Source `Image.copy` at the heap level: allocate a fresh buffer with the same
content. -/
def ImgStore.copyBuf (s : ImgStore) (r : ℕ) : ImgStore × ℕ :=
  (⟨s.bufs ++ [(s.read r).copy]⟩, s.bufs.length)

/-- An `AnchoredImage` whose raster lives in the heap. -/
structure AnchoredImageRef where
  imgRef : ℕ
  rel_anchor : ℚ × ℚ
  config : AIConfig

/-- Source `AnchoredImage.__deepcopy__` at the heap level:
`AnchoredImage(self.img.copy(), self.rel_anchor)` — a freshly allocated
buffer, the same relative anchor, and (constructor called with no config) the
default config. -/
def AnchoredImageRef.deepcopy (s : ImgStore) (a : AnchoredImageRef) :
    ImgStore × AnchoredImageRef :=
  let p := s.copyBuf a.imgRef
  (p.1, ⟨p.2, a.rel_anchor, AnchoredImage.default_config⟩)

/-- The end-to-end scenario's base image: 800 by 600, default anchor and
config. -/
def scenarioBase : AnchoredImage :=
  ⟨⟨800, 600, .base 0⟩, (mkRat 1 2, mkRat 1 2), AnchoredImage.default_config⟩

/-- The end-to-end scenario's params: preup 2, inner_scale 4, downscale 2,
5 frames, 60 fps, paste_within on. -/
def scenarioParams : GFParams := ⟨2, 4, 2, 5, 60, true⟩

/-- The orchestrator freshly built from `sampleImage10`. -/
def gFresh : Gifception :=
  ⟨sampleImage10, Gifception.default_config, Gifception.default_params, none, 0, .unset⟩

/-- A one-buffer heap for the C9 witness. -/
def sampleStore : ImgStore := ⟨[⟨10, 10, .base 0⟩]⟩

/-- An anchored reference into `sampleStore`. -/
def sampleRef : AnchoredImageRef := ⟨0, (mkRat 1 2, mkRat 1 2), ⟨123, 0⟩⟩

/-- A concrete growth-loop start state for the C4 witness. -/
def sampleNestSt : NestSt :=
  ⟨⟨⟨40, 40, .base 0⟩, (mkRat 1 2, mkRat 1 2), AnchoredImage.default_config⟩,
   ⟨⟨10, 10, .base 1⟩, (mkRat 1 2, mkRat 1 2), AnchoredImage.default_config⟩,
   mkRat 1 4⟩

/-- Helper: `Rat.floor` agrees with the `Int.floor` of the `FloorRing`
instance. -/
theorem ratFloor_eq (q : ℚ) : q.floor = ⌊q⌋ := by
  rw [Rat.floor_def', Rat.floor_def]

/-- Helper: `pyCeil` agrees with `Int.ceil`. -/
theorem pyCeil_eq (q : ℚ) : pyCeil q = ⌈q⌉ := by
  rw [pyCeil, ratFloor_eq, Int.floor_neg, neg_neg]

/-- Helper: `pyInt` in terms of `Int.floor` and `Int.ceil`. -/
theorem pyInt_eq (q : ℚ) : pyInt q = if 0 ≤ q then ⌊q⌋ else ⌈q⌉ := by
  rw [pyInt, ratFloor_eq, pyCeil_eq]

/-- Helper: `pyRound` of an integer is that integer. -/
theorem pyRound_intCast (n : ℤ) : pyRound (n : ℚ) = n := by
  unfold pyRound
  rw [ratFloor_eq]
  norm_num

/-- Helper: `pyRound` of a natural number cast. -/
theorem pyRound_natCast (n : ℕ) : pyRound (n : ℚ) = n := by
  have h := pyRound_intCast (n : ℤ)
  simpa using h


/-- Helper: closed-form characterization of `AnchoredImage.scale`. -/
theorem scale_eq (a : AnchoredImage) (factor : ℚ) (mp : Option ℚ) :
    a.scale factor mp =
      (if (a.img.width : ℚ) * a.img.height * factor ^ 2 > a.config.max_pixels ∧
          a.config.max_pixels > 0 then
        .error (.limitValue ((a.img.width : ℚ) * a.img.height * factor ^ 2)
          (match mp with
           | none => a.config.max_pixels
           | some m => if m = 0 then a.config.max_pixels else m))
      else if pyInt ((a.img.width : ℚ) * factor) < 1 ∨
          pyInt ((a.img.height : ℚ) * factor) < 1 then
        .error .resizeValue
      else
        .ok { a with img := ⟨(pyInt ((a.img.width : ℚ) * factor)).toNat,
                             (pyInt ((a.img.height : ℚ) * factor)).toNat,
                             .resized a.img.content
                               (pyInt ((a.img.width : ℚ) * factor)).toNat
                               (pyInt ((a.img.height : ℚ) * factor)).toNat⟩ }) := by
  by_cases h1 : (a.img.width : ℚ) * a.img.height * factor ^ 2 > a.config.max_pixels ∧
      a.config.max_pixels > 0
  · simp [AnchoredImage.scale, h1]
  · by_cases h2 : pyInt ((a.img.width : ℚ) * factor) < 1 ∨
        pyInt ((a.img.height : ℚ) * factor) < 1
    · simp [AnchoredImage.scale, PILImage.resize, Bind.bind, Except.bind, h1, h2]
    · simp [AnchoredImage.scale, PILImage.resize, Bind.bind, Except.bind, h1, h2]

/-- C2: `scale(factor)` (no explicit `max_pixels` argument) raises the
resource-limit `ValueError` iff `w*h*factor^2 > maxPixels` with
`maxPixels > 0`; it never raises it when `maxPixels ≤ 0`; and the configured
limit it validates against is the very value it reports. -/
theorem scale_resource_limit (a : AnchoredImage) (factor : ℚ) (hf : 0 < factor) :
    ((∃ npx rep, a.scale factor none = .error (.limitValue npx rep)) ↔
      ((a.img.width : ℚ) * a.img.height * factor ^ 2 > a.config.max_pixels ∧
        a.config.max_pixels > 0)) ∧
    (a.config.max_pixels ≤ 0 →
      ∀ npx rep, a.scale factor none ≠ .error (.limitValue npx rep)) ∧
    (∀ npx rep, a.scale factor none = .error (.limitValue npx rep) →
      rep = a.config.max_pixels ∧
      npx = (a.img.width : ℚ) * a.img.height * factor ^ 2) := by
  rw [scale_eq]
  by_cases h1 : (a.img.width : ℚ) * a.img.height * factor ^ 2 > a.config.max_pixels ∧
      a.config.max_pixels > 0
  · rw [if_pos h1]
    refine ⟨⟨fun _ => h1, fun _ => ⟨_, _, rfl⟩⟩, ?_, ?_⟩
    · intro hle
      exact absurd h1.2 (not_lt.mpr hle)
    · intro npx rep h
      simp only [Except.error.injEq, PyErr.limitValue.injEq] at h
      exact ⟨h.2.symm, h.1.symm⟩
  · rw [if_neg h1]
    by_cases h2 : pyInt ((a.img.width : ℚ) * factor) < 1 ∨
        pyInt ((a.img.height : ℚ) * factor) < 1
    · simp [h2, h1]
    · simp [h2, h1]

/-- Helper: `pyRound 0 = 0`. -/
theorem pyRound_zero : pyRound 0 = 0 := by
  simpa using pyRound_intCast 0

/-- Helper: closed-form characterization of `AnchoredImage.zoom_in`. -/
theorem zoom_in_eq (a : AnchoredImage) (f : ℚ) :
    a.zoom_in f =
      (if ((a.zoom_in_box f true).2).2.2.1 < ((a.zoom_in_box f true).2).1 ∨
          ((a.zoom_in_box f true).2).2.2.2 < ((a.zoom_in_box f true).2).2.1 then
        .error .cropValue
       else if a.img.width = 0 ∨ a.img.height = 0 then .error .resizeValue
       else .ok { a with img := ⟨a.img.width, a.img.height,
         .resized (.cropped a.img.content (pyRound ((a.zoom_in_box f true).2).1)
            (pyRound ((a.zoom_in_box f true).2).2.1)
            (pyRound ((a.zoom_in_box f true).2).2.2.1)
            (pyRound ((a.zoom_in_box f true).2).2.2.2)) a.img.width a.img.height⟩ }) := by
  by_cases h1 : ((a.zoom_in_box f true).2).2.2.1 < ((a.zoom_in_box f true).2).1 ∨
      ((a.zoom_in_box f true).2).2.2.2 < ((a.zoom_in_box f true).2).2.1
  · simp [AnchoredImage.zoom_in, PILImage.crop, Bind.bind, Except.bind, h1]
  · by_cases h2 : a.img.width = 0 ∨ a.img.height = 0
    · rcases h2 with h2 | h2 <;>
        simp [AnchoredImage.zoom_in, PILImage.crop, PILImage.resize, Bind.bind, Except.bind,
          h1, h2]
    · simp [AnchoredImage.zoom_in, PILImage.crop, PILImage.resize, Bind.bind, Except.bind,
        h1, h2]

/-- C3: a successful `scale`, `zoom_in` or `paste_aligned` leaves the relative
anchor unchanged, and `anchor_absolute` is the relative anchor times the
current size. -/
theorem anchor_invariant :
    (∀ (a a' : AnchoredImage) (f : ℚ) (mp : Option ℚ),
        a.scale f mp = .ok a' → a'.rel_anchor = a.rel_anchor) ∧
    (∀ (a a' : AnchoredImage) (f : ℚ),
        a.zoom_in f = .ok a' → a'.rel_anchor = a.rel_anchor) ∧
    (∀ a b : AnchoredImage, (a.paste_aligned b).rel_anchor = a.rel_anchor) ∧
    (∀ a : AnchoredImage,
        a.anchor_absolute = ((a.img.width : ℚ) * a.rel_anchor.1,
                             (a.img.height : ℚ) * a.rel_anchor.2)) := by
  refine ⟨?_, ?_, ?_, ?_⟩
  · intro a a' f mp h
    rw [scale_eq] at h
    split_ifs at h with h1 h2
    simp only [Except.ok.injEq] at h
    cases h
    rfl
  · intro a a' f h
    rw [zoom_in_eq] at h
    split_ifs at h with h1 h2
    simp only [Except.ok.injEq] at h
    cases h
    rfl
  · intro a b
    rfl
  · intro a
    rfl

/-- Witness for C3 at a concrete input. -/
theorem anchor_invariant_witness :
    sampleImage10.scale 2 none = .ok sampleImage10Scaled ∧
    sampleImage10Scaled.rel_anchor = sampleImage10.rel_anchor := by
  have h : sampleImage10.scale 2 none = .ok sampleImage10Scaled := by
    rw [scale_eq]
    norm_num [sampleImage10, sampleImage10Scaled, AnchoredImage.default_config, pyInt_eq]
    decide
  exact ⟨h, anchor_invariant.1 _ _ 2 none h⟩

/-- Helper: `mkRat` as a division of rationals. -/
theorem mkRat_div (n : ℤ) (d : ℕ) : mkRat n d = (n : ℚ) / (d : ℚ) := by
  rw [Rat.mkRat_eq_divInt, Rat.divInt_eq_div]
  norm_num

/-- C6 (code bug): `set_anchor_absolute` never raises. On a 10 by 10 image,
the out-of-bounds point (20, 5) makes it return (not raise) the `ValueError`
object, leaving the anchor unchanged, and the out-of-bounds point (-5, 3) is
accepted silently, mutating the anchor to the out-of-range value (-1/2, 3/10),
because the bounds check tests only `x > w or y > h`. -/
theorem set_anchor_absolute_bug :
    (sampleImage10.set_anchor_absolute (20, 5) =
      (sampleImage10, some (.anchorValue 20 5))) ∧
    (sampleImage10.set_anchor_absolute (-5, 3) =
      ({ sampleImage10 with rel_anchor := (mkRat (-1) 2, mkRat 3 10) }, none)) := by
  constructor
  · simp [AnchoredImage.set_anchor_absolute, sampleImage10]
    norm_num
  · simp [AnchoredImage.set_anchor_absolute, sampleImage10]
    norm_num [mkRat_div]

/-- C7: `zoom_in 1` computes the full-image crop box (0, 0, w, h) and resizes
the crop back to the original size, so dimensions and anchor are preserved
exactly and content changes only by the recorded resample. -/
theorem zoom_in_identity (a : AnchoredImage) (hw : 1 ≤ a.img.width)
    (hh : 1 ≤ a.img.height) :
    (a.zoom_in_box 1 true).2 = ((0 : ℚ), (0 : ℚ), (a.img.width : ℚ), (a.img.height : ℚ)) ∧
    a.zoom_in 1 = .ok { a with img :=
      ⟨a.img.width, a.img.height,
        .resized (.cropped a.img.content 0 0 (a.img.width : ℤ) (a.img.height : ℤ))
          a.img.width a.img.height⟩ } := by
  have hbox : (a.zoom_in_box 1 true).2 =
      ((0 : ℚ), (0 : ℚ), (a.img.width : ℚ), (a.img.height : ℚ)) := by
    simp [AnchoredImage.zoom_in_box, pyRound_zero, pyRound_natCast]
  refine ⟨hbox, ?_⟩
  have hw0 : ¬(a.img.width = 0 ∨ a.img.height = 0) := by omega
  rw [zoom_in_eq, hbox]
  simp [hw0, pyRound_zero, pyRound_natCast]

/-- Witness for C7 at a concrete input. -/
theorem zoom_in_identity_witness :
    1 ≤ sampleImage10.img.width ∧ 1 ≤ sampleImage10.img.height ∧
    ((sampleImage10.zoom_in_box 1 true).2 =
      ((0 : ℚ), (0 : ℚ), (sampleImage10.img.width : ℚ), (sampleImage10.img.height : ℚ)) ∧
    sampleImage10.zoom_in 1 = .ok { sampleImage10 with img :=
      ⟨sampleImage10.img.width, sampleImage10.img.height,
        .resized (.cropped sampleImage10.img.content 0 0 (sampleImage10.img.width : ℤ)
          (sampleImage10.img.height : ℤ))
          sampleImage10.img.width sampleImage10.img.height⟩ }) :=
  ⟨by decide, by decide,
    zoom_in_identity sampleImage10 (by decide) (by decide)⟩

/-- Witness for C2 at a concrete input. -/
theorem scale_resource_limit_witness :
    (0 : ℚ) < 2 ∧
    (((∃ npx rep, sampleSmallLimit.scale 2 none = .error (.limitValue npx rep)) ↔
        ((sampleSmallLimit.img.width : ℚ) * sampleSmallLimit.img.height * 2 ^ 2 >
            sampleSmallLimit.config.max_pixels ∧ sampleSmallLimit.config.max_pixels > 0)) ∧
      (sampleSmallLimit.config.max_pixels ≤ 0 → ∀ npx rep,
        sampleSmallLimit.scale 2 none ≠ .error (.limitValue npx rep)) ∧
      (∀ npx rep, sampleSmallLimit.scale 2 none = .error (.limitValue npx rep) →
        rep = sampleSmallLimit.config.max_pixels ∧
        npx = (sampleSmallLimit.img.width : ℚ) * sampleSmallLimit.img.height * 2 ^ 2)) :=
  ⟨by norm_num, scale_resource_limit sampleSmallLimit 2 (by norm_num)⟩

/-- C5 (code bug): on an orchestrator on which `start_making_frames` was never
called, `wait_for_frames` raises `AttributeError` (the attribute `qin` was
never assigned by `__init__`), not the intended `GifceptionException`
lifecycle error of the dead `if self.qin is None` guard. -/
theorem wait_before_start_attribute_error :
    ∀ (inp : ImgInput) (cfg : Option GFConfig) (prm : Option GFParams) (g : Gifception),
      Gifception.init inp cfg prm = .ok g →
      (g.wait_for_frames = .error (.attributeError "qin") ∧
        ∀ msg, g.wait_for_frames ≠ .error (.gifceptionError msg)) := by
  intro inp cfg prm g h
  cases inp with
  | pil img =>
    simp [Gifception.init, Gifception.load_image, Bind.bind, Except.bind] at h
  | anchored a =>
    simp only [Gifception.init, Gifception.load_image, Bind.bind, Except.bind,
      Except.ok.injEq] at h
    cases h
    exact ⟨rfl, fun msg => by simp [Gifception.wait_for_frames]⟩
  | other =>
    simp [Gifception.init, Gifception.load_image, Bind.bind, Except.bind] at h

/-- Witness for C5 at a concrete input. -/
theorem wait_before_start_attribute_error_witness :
    Gifception.init (.anchored sampleImage10) none none = .ok gFresh ∧
    (gFresh.wait_for_frames = .error (.attributeError "qin") ∧
      ∀ msg, gFresh.wait_for_frames ≠ .error (.gifceptionError msg)) :=
  ⟨rfl, wait_before_start_attribute_error (.anchored sampleImage10) none none gFresh rfl⟩

/-- C10 (code bug): `load_image` on a plain PIL image raises
`NameError` (the body reads the undefined name `imge`, a typo for `img`)
instead of wrapping it; the `AnchoredImage` branch stores the image as is,
and any other input raises `TypeError`. -/
theorem load_image_pil_name_error :
    (∀ img : PILImage, Gifception.load_image (.pil img) = .error (.nameError "imge")) ∧
    (∀ a : AnchoredImage, Gifception.load_image (.anchored a) = .ok a) ∧
    Gifception.load_image .other = .error (.typeError "Need an Image or AnchoredImage") :=
  ⟨fun _ => rfl, fun _ => rfl, rfl⟩

/-- C9: `__deepcopy__` allocates a fresh, content-equal pixel buffer (so
mutations of either image never affect the other), keeps the relative anchor,
and resets the config to the default one. -/
theorem deepcopy_independent (s : ImgStore) (a : AnchoredImageRef)
    (hv : a.imgRef < s.bufs.length) :
    ((AnchoredImageRef.deepcopy s a).2).imgRef ≠ a.imgRef ∧
    ((AnchoredImageRef.deepcopy s a).1).read ((AnchoredImageRef.deepcopy s a).2).imgRef
      = s.read a.imgRef ∧
    ((AnchoredImageRef.deepcopy s a).2).rel_anchor = a.rel_anchor ∧
    ((AnchoredImageRef.deepcopy s a).2).config = AnchoredImage.default_config ∧
    (∀ img, (((AnchoredImageRef.deepcopy s a).1).write
        ((AnchoredImageRef.deepcopy s a).2).imgRef img).read a.imgRef =
      ((AnchoredImageRef.deepcopy s a).1).read a.imgRef) ∧
    (∀ img, (((AnchoredImageRef.deepcopy s a).1).write a.imgRef img).read
        ((AnchoredImageRef.deepcopy s a).2).imgRef =
      ((AnchoredImageRef.deepcopy s a).1).read ((AnchoredImageRef.deepcopy s a).2).imgRef) := by
  refine ⟨by simp [AnchoredImageRef.deepcopy, ImgStore.copyBuf]; omega, ?_, rfl, rfl, ?_, ?_⟩
  · show (ImgStore.read ⟨s.bufs ++ [(s.read a.imgRef).copy]⟩ s.bufs.length) = s.read a.imgRef
    simp [ImgStore.read, PILImage.copy, List.getD_eq_getElem?_getD]
  · intro img
    show ImgStore.read ⟨(s.bufs ++ [(s.read a.imgRef).copy]).set s.bufs.length img⟩ a.imgRef =
      ImgStore.read ⟨s.bufs ++ [(s.read a.imgRef).copy]⟩ a.imgRef
    simp only [ImgStore.read, List.getD_eq_getElem?_getD]
    rw [List.getElem?_set_ne (by omega)]
  · intro img
    show ImgStore.read ⟨(s.bufs ++ [(s.read a.imgRef).copy]).set a.imgRef img⟩ s.bufs.length =
      ImgStore.read ⟨s.bufs ++ [(s.read a.imgRef).copy]⟩ s.bufs.length
    simp only [ImgStore.read, List.getD_eq_getElem?_getD]
    rw [List.getElem?_set_ne (by omega)]

/-- Witness for C9 at a concrete input. -/
theorem deepcopy_independent_witness :
    sampleRef.imgRef < sampleStore.bufs.length ∧
    (((AnchoredImageRef.deepcopy sampleStore sampleRef).2).imgRef ≠ sampleRef.imgRef ∧
    ((AnchoredImageRef.deepcopy sampleStore sampleRef).1).read
        ((AnchoredImageRef.deepcopy sampleStore sampleRef).2).imgRef
      = sampleStore.read sampleRef.imgRef ∧
    ((AnchoredImageRef.deepcopy sampleStore sampleRef).2).rel_anchor = sampleRef.rel_anchor ∧
    ((AnchoredImageRef.deepcopy sampleStore sampleRef).2).config =
      AnchoredImage.default_config ∧
    (∀ img, (((AnchoredImageRef.deepcopy sampleStore sampleRef).1).write
        ((AnchoredImageRef.deepcopy sampleStore sampleRef).2).imgRef img).read
          sampleRef.imgRef =
      ((AnchoredImageRef.deepcopy sampleStore sampleRef).1).read sampleRef.imgRef) ∧
    (∀ img, (((AnchoredImageRef.deepcopy sampleStore sampleRef).1).write
        sampleRef.imgRef img).read
          ((AnchoredImageRef.deepcopy sampleStore sampleRef).2).imgRef =
      ((AnchoredImageRef.deepcopy sampleStore sampleRef).1).read
        ((AnchoredImageRef.deepcopy sampleStore sampleRef).2).imgRef)) :=
  ⟨by decide, deepcopy_independent sampleStore sampleRef (by decide)⟩

/-- Helper: shrink arithmetic — a successful Pillow resize bound means the
truncated new width is strictly below the old one when the factor is
below 1. -/
theorem pyInt_scale_lt (w : ℕ) (s : ℚ) (hs : s < 1) (h1 : 1 ≤ pyInt ((w : ℚ) * s)) :
    (pyInt ((w : ℚ) * s)).toNat < w := by
  have hq0 : (0 : ℚ) ≤ (w : ℚ) * s := by
    by_contra hq
    push_neg at hq
    rw [pyInt_eq, if_neg (not_le.mpr hq)] at h1
    have hc0 : ⌈(w : ℚ) * s⌉ ≤ 0 := Int.ceil_le.mpr (by exact_mod_cast hq.le)
    omega
  rw [pyInt_eq, if_pos hq0] at h1 ⊢
  have hwpos : 0 < w := by
    by_contra hw0
    push_neg at hw0
    have hz : w = 0 := by omega
    rw [hz] at h1
    norm_num at h1
  have hlt : ⌊(w : ℚ) * s⌋ < (w : ℤ) := by
    have hql : (w : ℚ) * s < (w : ℚ) := by
      have hwq : (0 : ℚ) < (w : ℚ) := by exact_mod_cast hwpos
      exact mul_lt_of_lt_one_right hwq hs
    exact Int.floor_lt.mpr (by exact_mod_cast hql)
  have hge : (0 : ℤ) ≤ ⌊(w : ℚ) * s⌋ := Int.floor_nonneg.mpr hq0
  omega

/-- Helper: a committed round strictly shrinks `mini`. -/
theorem nestRound_width_lt (s : ℚ) (hs : s < 1) (st st' : NestSt)
    (hm : nestRound s st = some st') : st'.mini.img.width < st.mini.img.width := by
  simp only [nestRound] at hm
  cases hsc : st.mini.scale s none with
  | error e =>
    rw [hsc] at hm
    simp at hm
  | ok mini' =>
    rw [hsc] at hm
    simp only [Option.some.injEq] at hm
    cases hm
    rw [scale_eq] at hsc
    split_ifs at hsc with h1 h2
    simp only [Except.ok.injEq] at hsc
    cases hsc
    push_neg at h2
    obtain ⟨hw1, -⟩ := h2
    exact pyInt_scale_lt st.mini.img.width s hs hw1

/-- Helper: unfolding of `nestLoop` when the round fails. -/
theorem nestLoop_none (s : ℚ) (hs : s < 1) (st : NestSt)
    (h : nestRound s st = none) :
    nestLoop s hs st = ⟨st.nested.paste_aligned st.mini, st.mini, st.true_scale⟩ := by
  rw [nestLoop]
  split
  · rfl
  · rename_i st' heq
    rw [h] at heq
    cases heq

/-- Helper: unfolding of `nestLoop` on a committed round. -/
theorem nestLoop_some (s : ℚ) (hs : s < 1) (st st' : NestSt)
    (h : nestRound s st = some st') :
    nestLoop s hs st = nestLoop s hs st' := by
  rw [nestLoop]
  split
  · rename_i heq
    rw [h] at heq
    cases heq
  · rename_i st'' heq
    rw [h] at heq
    cases heq
    rfl

/-- Helper: full characterization of a run of the growth loop. -/
theorem nestLoop_run_spec (s : ℚ) (hs : s < 1) (st : NestSt) :
    ∃ k st', nestRounds s k st = some st' ∧
      nestRound s st' = none ∧
      (∃ e, st'.mini.scale s none = .error e) ∧
      nestLoop s hs st = ⟨st'.nested.paste_aligned st'.mini, st'.mini, st'.true_scale⟩ := by
  suffices H : ∀ n st, st.mini.img.width = n →
      ∃ k st', nestRounds s k st = some st' ∧
        nestRound s st' = none ∧
        (∃ e, st'.mini.scale s none = .error e) ∧
        nestLoop s hs st = ⟨st'.nested.paste_aligned st'.mini, st'.mini, st'.true_scale⟩ by
    exact H _ st rfl
  intro n
  induction n using Nat.strong_induction_on with
  | _ n ih =>
    intro st hw
    cases hm : nestRound s st with
    | none =>
      have hsc : ∃ e, st.mini.scale s none = .error e := by
        simp only [nestRound] at hm
        cases hsc' : st.mini.scale s none with
        | error e => exact ⟨e, rfl⟩
        | ok mini' =>
          rw [hsc'] at hm
          simp at hm
      exact ⟨0, st, rfl, hm, hsc, nestLoop_none s hs st hm⟩
    | some st' =>
      have hlt := nestRound_width_lt s hs st st' hm
      obtain ⟨k, st'', h1, h2, h3, h4⟩ := ih st'.mini.img.width (by omega) st' rfl
      refine ⟨k + 1, st'', ?_, h2, h3, ?_⟩
      · simp [nestRounds, hm, h1]
      · rw [nestLoop_some s hs st st' hm]
        exact h4

/-- C4: the nested-base growth loop terminates: there are finitely many (`k`)
committed rounds, the next round's `mini.scale` raises, and the loop's result
is exactly the `k`-round state plus that final round's already-committed
paste — `mini` and `true_scale` are untouched by the failing operation, and
`nested` is not partially mutated. -/
theorem nested_base_loop_terminates (s : ℚ) (hs : s < 1) (st : NestSt) :
    ∃ k st', nestRounds s k st = some st' ∧
      nestRound s st' = none ∧
      (∃ e, st'.mini.scale s none = .error e) ∧
      nestLoop s hs st = ⟨st'.nested.paste_aligned st'.mini, st'.mini, st'.true_scale⟩ :=
  nestLoop_run_spec s hs st

/-- Witness for C4 at a concrete input. -/
theorem nested_base_loop_terminates_witness :
    (mkRat 1 4 : ℚ) < 1 ∧
    ∃ k st', nestRounds (mkRat 1 4) k sampleNestSt = some st' ∧
      nestRound (mkRat 1 4) st' = none ∧
      (∃ e, st'.mini.scale (mkRat 1 4) none = .error e) ∧
      nestLoop (mkRat 1 4) (by rw [mkRat_div]; norm_num) sampleNestSt =
        ⟨st'.nested.paste_aligned st'.mini, st'.mini, st'.true_scale⟩ :=
  ⟨by rw [mkRat_div]; norm_num,
    nested_base_loop_terminates (mkRat 1 4) (by rw [mkRat_div]; norm_num) sampleNestSt⟩

/-- Helper: a run of zero digits has value zero. -/
theorem ofDigits_replicate_zero (k : ℕ) :
    Nat.ofDigits 10 (List.replicate k 0) = 0 := by
  induction k with
  | zero => simp [Nat.ofDigits]
  | succ k ih => simp [List.replicate_succ, Nat.ofDigits_cons, ih]

/-- Helper: decoding the zero-padded digit string recovers the frame index. -/
theorem decode_pad5 (n : ℕ) : decodeDigits (pad5 (decDigits n)) = n := by
  unfold decodeDigits pad5 decDigits
  rw [List.reverse_append, List.reverse_replicate, List.reverse_reverse,
    Nat.ofDigits_append, ofDigits_replicate_zero, Nat.ofDigits_digits]
  ring

/-- Helper: digit characters are distinct for distinct digits. -/
theorem digitChar_inj : ∀ d1 < 10, ∀ d2 < 10, digitChar d1 = digitChar d2 → d1 = d2 := by
  decide

/-- Helper: mapping to characters is injective on digit strings. -/
theorem map_digitChar_inj : ∀ l1 l2 : List ℕ, (∀ d ∈ l1, d < 10) → (∀ d ∈ l2, d < 10) →
    l1.map digitChar = l2.map digitChar → l1 = l2 := by
  intro l1
  induction l1 with
  | nil =>
    intro l2 _ _ h
    cases l2 with
    | nil => rfl
    | cons d2 t2 => simp at h
  | cons d t ih =>
    intro l2 h1 h2 h
    cases l2 with
    | nil => simp at h
    | cons d2 t2 =>
      simp only [List.map_cons, List.cons.injEq] at h
      have hd := digitChar_inj d (h1 d (by simp)) d2 (h2 d2 (by simp)) h.1
      have ht := ih t2 (fun x hx => h1 x (by simp [hx])) (fun x hx => h2 x (by simp [hx])) h.2
      rw [hd, ht]

/-- Helper: every entry of the padded digit string is a decimal digit. -/
theorem pad5_decDigits_lt (n : ℕ) : ∀ d ∈ pad5 (decDigits n), d < 10 := by
  intro d hd
  unfold pad5 decDigits at hd
  rcases List.mem_append.mp hd with h | h
  · rw [List.eq_of_mem_replicate h]
    norm_num
  · exact Nat.digits_lt_base (by norm_num) (List.mem_reverse.mp h)

/-- Helper: distinct frame indices give distinct file names. -/
theorem frameFileName_inj : Function.Injective frameFileName := by
  intro m n h
  unfold frameFileName at h
  have hd : "frame-".data ++ ((pad5 (decDigits m)).map digitChar ++ ".png".data) =
      "frame-".data ++ ((pad5 (decDigits n)).map digitChar ++ ".png".data) := by
    have := congrArg String.data h
    simpa [List.append_assoc] using this
  have hd2 := List.append_cancel_left hd
  have hd3 := List.append_cancel_right hd2
  have hp := map_digitChar_inj _ _ (pad5_decDigits_lt m) (pad5_decDigits_lt n) hd3
  have hv := congrArg decodeDigits hp
  rwa [decode_pad5, decode_pad5] at hv

/-- Helper: the `N` frame file names are pairwise distinct. -/
theorem frameFileName_nodup (N : ℕ) : ((List.range' 1 N).map frameFileName).Nodup :=
  (List.nodup_range' (s := 1) (n := N)).map frameFileName_inj

/-- Helper: the initial pool state satisfies the invariant. -/
theorem poolInit_inv (nf nt : ℕ) : PoolInv nf nt (poolInit nf nt) := by
  refine ⟨0, by omega, ?_, ?_, ?_, le_rfl, fun _ => rfl⟩
  · simp [poolInit]
  · simp [poolInit]
  · simp [poolInit]

/-- Helper: consing on the left is appending on the underlying list. -/
theorem cons_add_right_coe {α : Type} (x : α) (A : List α) (R : Multiset α) :
    x ::ₘ ((A : Multiset α) + R) = ((A ++ [x] : List α) : Multiset α) + R := by
  have h1 : ((A ++ [x] : List α) : Multiset α) = (A : Multiset α) + (([x] : List α) : Multiset α) :=
    rfl
  have h2 : (([x] : List α) : Multiset α) = {x} := rfl
  rw [h1, h2, add_assoc, Multiset.singleton_add, Multiset.add_cons]

/-- Helper: each scheduler step preserves the pool invariant. -/
theorem poolStep_inv (nf nt : ℕ) (s s' : PoolState) (h : PoolStep s s')
    (hi : PoolInv nf nt s) : PoolInv nf nt s' := by
  obtain ⟨k, hk, hqin, hfiles, hqout, hrun, hkr⟩ := hi
  cases h with
  | frame i rest run w out =>
    simp only at hqin hfiles hqout hrun hkr ⊢
    have hnfk : nf - k ≠ 0 := by
      intro h0
      rw [h0] at hqin
      rw [List.replicate_succ] at hqin
      simp at hqin
    have hsplit : nf - k = (nf - (k + 1)) + 1 := by omega
    rw [hsplit, List.range'_succ, List.map_cons, List.cons_append] at hqin
    simp only [List.cons.injEq, Option.some.injEq] at hqin
    obtain ⟨hik, hrest⟩ := hqin
    have hklt : k < nf := by omega
    refine ⟨k + 1, by omega, ?_, ?_, ?_, hrun, fun _ => hkr hklt⟩
    · simpa using hrest
    · rw [hfiles, hik, List.range'_1_concat, List.map_append]
      simp only [Nat.add_comm 1 k]
      exact Multiset.coe_eq_coe.mpr (List.perm_append_singleton _ _).symm
    · rw [hqout, hik, List.range'_1_concat, List.map_append]
      simp only [Nat.add_comm 1 k, List.map_cons, List.map_nil]
      exact cons_add_right_coe _ _ _
  | stop rest run w out =>
    simp only at hqin hfiles hqout hrun hkr ⊢
    have hnfk : nf - k = 0 := by
      by_contra h0
      have hsplit : nf - k = (nf - (k + 1)) + 1 := by omega
      rw [hsplit, List.range'_succ, List.map_cons, List.cons_append] at hqin
      simp at hqin
    have hkn : k = nf := by omega
    rw [hnfk] at hqin
    simp only [List.range'_zero, List.map_nil, List.nil_append, List.replicate_succ,
      List.cons.injEq] at hqin
    have hrn : run ≤ nt := by omega
    have himp : k < nf → run = nt := by omega
    refine ⟨k, hk, ?_, hfiles, ?_, hrn, himp⟩
    · rw [hnfk]
      simpa using hqin.2
    · rw [hqout]
      have hsub : nt - run = (nt - (run + 1)) + 1 := by omega
      rw [hsub, Multiset.replicate_succ, Multiset.add_cons]

/-- Helper: the invariant holds at every reachable pool state. -/
theorem pool_reachable_inv (nf nt : ℕ) (s : PoolState)
    (h : Relation.ReflTransGen PoolStep (poolInit nf nt) s) : PoolInv nf nt s := by
  induction h with
  | refl => exact poolInit_inv nf nt
  | tail hr hstep ih => exact poolStep_inv nf nt _ _ hstep ih

/-- Helper: a step pops exactly one queue item. -/
theorem poolStep_qin_length (s s' : PoolState) (h : PoolStep s s') :
    s'.qin.length + 1 = s.qin.length := by
  cases h <;> simp

/-- Helper: while workers are running, a step is always possible (the queue
still holds their stop markers, so `qin.get()` cannot block forever). -/
theorem pool_progress (nf nt : ℕ) (s : PoolState) (hinv : PoolInv nf nt s)
    (hr : s.running ≠ 0) : ∃ s', PoolStep s s' := by
  obtain ⟨k, hk, hqin, hfiles, hqout, hrun, hkr⟩ := hinv
  obtain ⟨qin, running, files, qout⟩ := s
  simp only at hqin hr ⊢
  obtain ⟨run, rfl⟩ : ∃ r, running = r + 1 := ⟨running - 1, by omega⟩
  by_cases hnfk : nf - k = 0
  · rw [hnfk] at hqin
    simp only [List.range'_zero, List.map_nil, List.nil_append, List.replicate_succ] at hqin
    subst hqin
    exact ⟨_, PoolStep.stop _ run files qout⟩
  · have hsplit : nf - k = (nf - (k + 1)) + 1 := by omega
    rw [hsplit, List.range'_succ, List.map_cons, List.cons_append] at hqin
    subst hqin
    exact ⟨_, PoolStep.frame (k + 1) _ run files qout⟩

/-- Helper: from any invariant state the pool reaches a fully-stopped state. -/
theorem pool_reaches_terminal (nf nt : ℕ) :
    ∀ n (s : PoolState), s.qin.length = n → PoolInv nf nt s →
      ∃ s', Relation.ReflTransGen PoolStep s s' ∧ s'.running = 0 := by
  intro n
  induction n using Nat.strong_induction_on with
  | _ n ih =>
    intro s hlen hinv
    by_cases hr : s.running = 0
    · exact ⟨s, Relation.ReflTransGen.refl, hr⟩
    · obtain ⟨s', hstep⟩ := pool_progress nf nt s hinv hr
      have hlt := poolStep_qin_length s s' hstep
      obtain ⟨s'', hsteps, hterm⟩ :=
        ih s'.qin.length (by omega) s' rfl (poolStep_inv nf nt s s' hstep hinv)
      exact ⟨s'', Relation.ReflTransGen.head hstep hsteps, hterm⟩

/-- Helper: every reachable all-stopped pool state holds exactly the `N`
frame files, with the queues in the state `wait_for_frames` checks for. -/
theorem pool_terminal_state (N P : ℕ) (hP1 : 1 ≤ P) (s' : PoolState)
    (hreach : Relation.ReflTransGen PoolStep (poolInit N P) s') (hterm : s'.running = 0) :
    s'.files = ((List.range' 1 N).map frameFileName : List String) ∧
    Multiset.card s'.files = N ∧ s'.qin = [] ∧ Multiset.card s'.qout = N + P := by
  obtain ⟨k, hk, hqin, hfiles, hqout, hrun, hkr⟩ := pool_reachable_inv N P s' hreach
  have hkN : k = N := by
    by_contra hne
    have := hkr (by omega)
    omega
  rw [hkN] at hqin hfiles hqout
  refine ⟨by rw [hfiles], ?_, ?_, ?_⟩
  · rw [hfiles]
    simp
  · rw [hqin, hterm]
    simp
  · rw [hqout, hterm]
    simp

/-- C1: for any `numFrames = N >= 2` and pool size `P` in `[1, N]`, the worker
pool terminates, and in every reachable all-stopped state the frame directory
holds exactly the `N` distinct files `frame-00001.png` ... `frame-0000N.png` —
none missing, none duplicated — the task queue is drained and the result
queue holds `N + P` items, so the completion checks of `wait_for_frames`
pass. Each frame step writes the file name `make_frame` uses for its index. -/
theorem generate_frames_complete (N P : ℕ) (hN : 2 ≤ N) (hP1 : 1 ≤ P) (hPN : P ≤ N) :
    (∃ s', Relation.ReflTransGen PoolStep (poolInit N P) s' ∧ s'.running = 0) ∧
    (∀ s', Relation.ReflTransGen PoolStep (poolInit N P) s' → s'.running = 0 →
      s'.files = ((List.range' 1 N).map frameFileName : List String) ∧
      Multiset.card s'.files = N ∧
      ((List.range' 1 N).map frameFileName).Nodup ∧
      s'.qin = [] ∧ Multiset.card s'.qout = N + P) := by
  constructor
  · exact pool_reaches_terminal N P (poolInit N P).qin.length (poolInit N P) rfl
      (poolInit_inv N P)
  · intro s' hreach hterm
    obtain ⟨h1, h2, h3, h4⟩ := pool_terminal_state N P hP1 s' hreach hterm
    exact ⟨h1, h2, frameFileName_nodup N, h3, h4⟩

/-- Witness for C1 at `N = 2`, `P = 1`. -/
theorem generate_frames_complete_witness :
    2 ≤ 2 ∧ 1 ≤ 1 ∧ 1 ≤ 2 ∧
    ((∃ s', Relation.ReflTransGen PoolStep (poolInit 2 1) s' ∧ s'.running = 0) ∧
    (∀ s', Relation.ReflTransGen PoolStep (poolInit 2 1) s' → s'.running = 0 →
      s'.files = ((List.range' 1 2).map frameFileName : List String) ∧
      Multiset.card s'.files = 2 ∧
      ((List.range' 1 2).map frameFileName).Nodup ∧
      s'.qin = [] ∧ Multiset.card s'.qout = 2 + 1)) :=
  ⟨by decide, by decide, by decide,
    generate_frames_complete 2 1 (by decide) (by decide) (by decide)⟩

/-- Helper: `pyRound` of a nonnegative value is nonnegative. -/
theorem pyRound_nonneg (q : ℚ) (h : 0 ≤ q) : 0 ≤ pyRound q := by
  unfold pyRound
  rw [ratFloor_eq]
  have hf := Int.floor_nonneg.mpr h
  simp only []
  split_ifs <;> omega

/-- Helper: `pyInt` of a value at least 1 is at least 1. -/
theorem one_le_pyInt (q : ℚ) (h : 1 ≤ q) : 1 ≤ pyInt q := by
  rw [pyInt_eq, if_pos (by linarith)]
  exact Int.le_floor.mpr (by exact_mod_cast h)

/-- Helper: the rounded zoom-in crop box, componentwise. -/
theorem zoom_in_box_rounded (a : AnchoredImage) (f : ℚ) :
    (a.zoom_in_box f true).2 =
      ((pyRound (a.rel_anchor.1 * a.img.width * (1 - 1/f)) : ℚ),
       (pyRound (a.rel_anchor.2 * a.img.height * (1 - 1/f)) : ℚ),
       (pyRound (a.rel_anchor.1 * a.img.width * (1 - 1/f)) : ℚ) +
         (pyRound ((a.img.width : ℚ)/f) : ℚ),
       (pyRound (a.rel_anchor.2 * a.img.height * (1 - 1/f)) : ℚ) +
         (pyRound ((a.img.height : ℚ)/f) : ℚ)) := by
  simp [AnchoredImage.zoom_in_box]

/-- Helper: `zoom_in` succeeds for any positive factor on a nonempty image,
and returns an image of the original size. -/
theorem zoom_in_ok (a : AnchoredImage) (f : ℚ) (hf : 0 < f)
    (hw : a.img.width ≠ 0) (hh : a.img.height ≠ 0) :
    a.zoom_in f = .ok { a with img := ⟨a.img.width, a.img.height,
      .resized (.cropped a.img.content (pyRound ((a.zoom_in_box f true).2).1)
         (pyRound ((a.zoom_in_box f true).2).2.1)
         (pyRound ((a.zoom_in_box f true).2).2.2.1)
         (pyRound ((a.zoom_in_box f true).2).2.2.2)) a.img.width a.img.height⟩ } := by
  rw [zoom_in_eq]
  have hws : (0 : ℚ) ≤ (pyRound ((a.img.width : ℚ)/f) : ℚ) := by
    exact_mod_cast pyRound_nonneg _ (by positivity)
  have hhs : (0 : ℚ) ≤ (pyRound ((a.img.height : ℚ)/f) : ℚ) := by
    exact_mod_cast pyRound_nonneg _ (by positivity)
  have hcond : ¬(((a.zoom_in_box f true).2).2.2.1 < ((a.zoom_in_box f true).2).1 ∨
      ((a.zoom_in_box f true).2).2.2.2 < ((a.zoom_in_box f true).2).2.1) := by
    rw [zoom_in_box_rounded]
    push_neg
    constructor <;> simp <;> exact pyRound_nonneg _ (by positivity)
  rw [if_neg hcond, if_neg (by omega)]

/-- Helper: a committed round only pastes onto `nested`, preserving its
geometry, anchor and config. -/
theorem nestRound_geom (s : ℚ) (st st' : NestSt) (h : nestRound s st = some st') :
    st'.nested.img.width = st.nested.img.width ∧
    st'.nested.img.height = st.nested.img.height ∧
    st'.nested.rel_anchor = st.nested.rel_anchor ∧
    st'.nested.config = st.nested.config := by
  simp only [nestRound] at h
  cases hsc : st.mini.scale s none with
  | error e =>
    rw [hsc] at h
    simp at h
  | ok mini' =>
    rw [hsc] at h
    simp only [Option.some.injEq] at h
    cases h
    exact ⟨rfl, rfl, rfl, rfl⟩

/-- Helper: iterated rounds preserve `nested`'s geometry, anchor and config. -/
theorem nestRounds_geom (s : ℚ) : ∀ (k : ℕ) (st st' : NestSt),
    nestRounds s k st = some st' →
    st'.nested.img.width = st.nested.img.width ∧
    st'.nested.img.height = st.nested.img.height ∧
    st'.nested.rel_anchor = st.nested.rel_anchor ∧
    st'.nested.config = st.nested.config := by
  intro k
  induction k with
  | zero =>
    intro st st' h
    simp only [nestRounds, Option.some.injEq] at h
    cases h
    exact ⟨rfl, rfl, rfl, rfl⟩
  | succ k ih =>
    intro st st' h
    simp only [nestRounds] at h
    cases hr : nestRound s st with
    | none =>
      rw [hr] at h
      simp at h
    | some st1 =>
      rw [hr] at h
      obtain ⟨h1, h2, h3, h4⟩ := ih st1 st' h
      obtain ⟨g1, g2, g3, g4⟩ := nestRound_geom s st st1 hr
      exact ⟨h1.trans g1, h2.trans g2, h3.trans g3, h4.trans g4⟩

/-- Helper: the whole growth loop preserves `nested`'s geometry, anchor and
config — only its content gains pastes. -/
theorem nestLoop_geom (s : ℚ) (hs : s < 1) (st : NestSt) :
    (nestLoop s hs st).nested.img.width = st.nested.img.width ∧
    (nestLoop s hs st).nested.img.height = st.nested.img.height ∧
    (nestLoop s hs st).nested.rel_anchor = st.nested.rel_anchor ∧
    (nestLoop s hs st).nested.config = st.nested.config := by
  obtain ⟨k, st', h1, h2, h3, h4⟩ := nestLoop_run_spec s hs st
  obtain ⟨g1, g2, g3, g4⟩ := nestRounds_geom s k st st' h1
  rw [h4]
  exact ⟨g1, g2, g3, g4⟩

/-- Helper: the scenario's shrink factor is below 1. -/
theorem scenario_inner_lt : 1 / scenarioParams.inner_scale < 1 := by
  norm_num [scenarioParams]

/-- Helper: the scenario's nested base is built successfully and is a
1600 by 1200 image (800 by 600 pre-upscaled by `preup = 2`) with the centered
anchor and the default config. -/
theorem prepare_scenario :
    ∃ st, prepare_nested_base scenarioBase scenarioParams scenario_inner_lt = .ok st ∧
      st.nested.img.width = 1600 ∧ st.nested.img.height = 1200 ∧
      st.nested.rel_anchor = (mkRat 1 2, mkRat 1 2) ∧
      st.nested.config = AnchoredImage.default_config := by
  have h1 : (scenarioBase.deepcopy).scale scenarioParams.preup none =
      .ok ⟨⟨1600, 1200, .resized (.base 0) 1600 1200⟩, (mkRat 1 2, mkRat 1 2),
        AnchoredImage.default_config⟩ := by
    rw [scale_eq]
    norm_num [scenarioBase, scenarioParams, AnchoredImage.deepcopy, PILImage.copy,
      AnchoredImage.default_config, pyInt_eq]
    decide
  have h2 : (scenarioBase.deepcopy).scale
      (scenarioParams.preup * (1 / scenarioParams.inner_scale)) none =
      .ok ⟨⟨400, 300, .resized (.base 0) 400 300⟩, (mkRat 1 2, mkRat 1 2),
        AnchoredImage.default_config⟩ := by
    rw [scale_eq]
    norm_num [scenarioBase, scenarioParams, AnchoredImage.deepcopy, PILImage.copy,
      AnchoredImage.default_config, pyInt_eq]
    decide
  unfold prepare_nested_base
  rw [h1, h2]
  simp only [Bind.bind, Except.bind]
  refine ⟨_, rfl, ?_, ?_, ?_, ?_⟩
  · rw [(nestLoop_geom _ scenario_inner_lt _).1]
  · rw [(nestLoop_geom _ scenario_inner_lt _).2.1]
  · rw [(nestLoop_geom _ scenario_inner_lt _).2.2.1]
  · rw [(nestLoop_geom _ scenario_inner_lt _).2.2.2]

/-- Helper: an aligned paste changes no geometry of the target. -/
theorem paste_aligned_geom (a b : AnchoredImage) :
    (a.paste_aligned b).img.width = a.img.width ∧
    (a.paste_aligned b).img.height = a.img.height ∧
    (a.paste_aligned b).rel_anchor = a.rel_anchor ∧
    (a.paste_aligned b).config = a.config :=
  ⟨rfl, rfl, rfl, rfl⟩

/-- Helper: in the end-to-end scenario every frame renders successfully for
any zoom value `mz` in `[1, 4]` (the range `zoom**(i-1)` lies in), is written
under its index's `frame-NNNNN.png` name, and measures 800 by 600: the
1600 by 1200 nested base divided by `downscale = 2`. -/
theorem make_frame_scenario (nb : AnchoredImage) (hW : nb.img.width = 1600)
    (hH : nb.img.height = 1200) (i : ℕ) (mz : ℚ) (h1 : 1 ≤ mz) (h4 : mz ≤ 4) :
    ∃ fr, make_frame nb scenarioParams i mz = .ok (fr, frameFileName i) ∧
      fr.img.width = 800 ∧ fr.img.height = 600 := by
  have hmz0 : (0 : ℚ) < mz := by linarith
  have hdW : nb.deepcopy.img.width = 1600 := by
    simp [AnchoredImage.deepcopy, PILImage.copy, hW]
  have hdH : nb.deepcopy.img.height = 1200 := by
    simp [AnchoredImage.deepcopy, PILImage.copy, hH]
  have hdC : nb.deepcopy.config = AnchoredImage.default_config := rfl
  obtain ⟨zf, hz, hzW, hzH, hzC⟩ : ∃ zf, nb.deepcopy.zoom_in mz = .ok zf ∧
      zf.img.width = 1600 ∧ zf.img.height = 1200 ∧
      zf.config = AnchoredImage.default_config := by
    refine ⟨_, zoom_in_ok nb.deepcopy mz hmz0 (by omega) (by omega), ?_, ?_, rfl⟩
    · exact hdW
    · exact hdH
  obtain ⟨sm, hsm⟩ : ∃ sm,
      (nb.deepcopy).scale (mz / scenarioParams.inner_scale) none = .ok sm := by
    have hbud : ¬((nb.deepcopy.img.width : ℚ) * nb.deepcopy.img.height *
        (mz / scenarioParams.inner_scale) ^ 2 > nb.deepcopy.config.max_pixels ∧
        nb.deepcopy.config.max_pixels > 0) := by
      rw [hdW, hdH, hdC]
      simp only [scenarioParams, AnchoredImage.default_config]
      push_neg
      intro hgt
      exfalso
      have hsq : (mz / 4) ^ 2 ≤ 1 := by nlinarith
      push_cast at hgt
      nlinarith
    have hrsz : ¬(pyInt ((nb.deepcopy.img.width : ℚ) * (mz / scenarioParams.inner_scale)) < 1 ∨
        pyInt ((nb.deepcopy.img.height : ℚ) * (mz / scenarioParams.inner_scale)) < 1) := by
      rw [hdW, hdH]
      simp only [scenarioParams]
      push_neg
      constructor
      · have := one_le_pyInt ((1600 : ℚ) * (mz / 4)) (by nlinarith)
        push_cast
        omega
      · have := one_le_pyInt ((1200 : ℚ) * (mz / 4)) (by nlinarith)
        push_cast
        omega
    exact ⟨_, by rw [scale_eq, if_neg hbud, if_neg hrsz]⟩
  obtain ⟨fr, hfr, frW, frH⟩ : ∃ fr,
      (zf.paste_aligned sm).scale (1 / scenarioParams.downscale) none = .ok fr ∧
      fr.img.width = 800 ∧ fr.img.height = 600 := by
    have hpW : (zf.paste_aligned sm).img.width = 1600 := by
      rw [(paste_aligned_geom zf sm).1, hzW]
    have hpH : (zf.paste_aligned sm).img.height = 1200 := by
      rw [(paste_aligned_geom zf sm).2.1, hzH]
    have hpC : (zf.paste_aligned sm).config = AnchoredImage.default_config := by
      rw [(paste_aligned_geom zf sm).2.2.2, hzC]
    have hbud2 : ¬((((zf.paste_aligned sm).img.width : ℚ)) * (zf.paste_aligned sm).img.height *
        (1 / scenarioParams.downscale) ^ 2 > (zf.paste_aligned sm).config.max_pixels ∧
        (zf.paste_aligned sm).config.max_pixels > 0) := by
      rw [hpW, hpH, hpC]
      simp only [scenarioParams, AnchoredImage.default_config]
      push_neg
      intro hgt
      exfalso
      push_cast at hgt
      norm_num at hgt
    have hrsz2 : ¬(pyInt (((zf.paste_aligned sm).img.width : ℚ) *
        (1 / scenarioParams.downscale)) < 1 ∨
        pyInt (((zf.paste_aligned sm).img.height : ℚ) * (1 / scenarioParams.downscale)) < 1) := by
      rw [hpW, hpH]
      simp only [scenarioParams]
      push_neg
      constructor
      · have := one_le_pyInt ((1600 : ℚ) * (1 / 2)) (by norm_num)
        push_cast
        omega
      · have := one_le_pyInt ((1200 : ℚ) * (1 / 2)) (by norm_num)
        push_cast
        omega
    refine ⟨_, by rw [scale_eq, if_neg hbud2, if_neg hrsz2], ?_, ?_⟩
    · show (pyInt (((zf.paste_aligned sm).img.width : ℚ) * (1 / scenarioParams.downscale))).toNat
        = 800
      rw [hpW]
      simp only [scenarioParams]
      norm_num [pyInt_eq]
      decide
    · show (pyInt (((zf.paste_aligned sm).img.height : ℚ) * (1 / scenarioParams.downscale))).toNat
        = 600
      rw [hpH]
      simp only [scenarioParams]
      norm_num [pyInt_eq]
      decide
  refine ⟨fr, ?_, frW, frH⟩
  simp only [make_frame]
  rw [hz]
  simp only [Bind.bind, Except.bind]
  have hpw : scenarioParams.paste_within = true := rfl
  rw [hpw]
  simp only [if_true]
  rw [hsm]
  simp only [Bind.bind, Except.bind]
  rw [hfr]

/-- C8 counterexample: in the end-to-end scenario (800 by 600 base, preup 2,
inner_scale 4, downscale 2, 5 frames, paste_within on, 3 workers) the first
frame is produced without error but measures 800 by 600 — not the claimed
400 by 300 (the spec's own parenthetical 800*2/2 by 600*2/2 gives 800 by
600). -/
theorem scenario_frame_size_counterexample :
    ∃ st fr, prepare_nested_base scenarioBase scenarioParams scenario_inner_lt = .ok st ∧
      make_frame st.nested scenarioParams 1 1 = .ok (fr, frameFileName 1) ∧
      fr.img.width = 800 ∧ fr.img.height = 600 ∧
      ¬(fr.img.width = 400 ∧ fr.img.height = 300) := by
  obtain ⟨st, hp, hw, hh, ha, hc⟩ := prepare_scenario
  obtain ⟨fr, hmf, fw, fh⟩ := make_frame_scenario st.nested hw hh 1 1 le_rfl (by norm_num)
  exact ⟨st, fr, hp, hmf, fw, fh, by omega⟩

/-- C8 (amended): in the end-to-end scenario, `generate()` completes without
error — the nested base builds as a 1600 by 1200 composite, every frame
index `i` in `[1, 5]` is rendered for its zoom value and written as
`frame-0000i.png` at size 800 by 600 (not 400 by 300), and the pool with 3
workers terminates with exactly the five distinct files and the completion
checks passing. -/
theorem scenario_end_to_end (i : ℕ) (hi1 : 1 ≤ i) (hi5 : i ≤ 5)
    (mz : ℚ) (hmz1 : 1 ≤ mz) (hmz4 : mz ≤ 4) :
    (∃ st, prepare_nested_base scenarioBase scenarioParams scenario_inner_lt = .ok st ∧
      st.nested.img.width = 1600 ∧ st.nested.img.height = 1200 ∧
      (∃ fr, make_frame st.nested scenarioParams i mz = .ok (fr, frameFileName i) ∧
        fr.img.width = 800 ∧ fr.img.height = 600)) ∧
    (∃ s', Relation.ReflTransGen PoolStep (poolInit 5 3) s' ∧ s'.running = 0) ∧
    (∀ s', Relation.ReflTransGen PoolStep (poolInit 5 3) s' → s'.running = 0 →
      s'.files = ((List.range' 1 5).map frameFileName : List String) ∧
      ((List.range' 1 5).map frameFileName).Nodup ∧
      s'.qin = [] ∧ Multiset.card s'.qout = 5 + 3) := by
  refine ⟨?_, ?_, ?_⟩
  · obtain ⟨st, hp, hw, hh, ha, hc⟩ := prepare_scenario
    obtain ⟨fr, hmf, fw, fh⟩ := make_frame_scenario st.nested hw hh i mz hmz1 hmz4
    exact ⟨st, hp, hw, hh, fr, hmf, fw, fh⟩
  · exact pool_reaches_terminal 5 3 (poolInit 5 3).qin.length (poolInit 5 3) rfl
      (poolInit_inv 5 3)
  · intro s' hreach hterm
    obtain ⟨h1, h2, h3, h4⟩ := pool_terminal_state 5 3 (by norm_num) s' hreach hterm
    exact ⟨h1, frameFileName_nodup 5, h3, h4⟩

/-- Witness for the amended C8 at a concrete frame index and zoom value. -/
theorem scenario_end_to_end_witness :
    1 ≤ 2 ∧ 2 ≤ 5 ∧ (1 : ℚ) ≤ 2 ∧ (2 : ℚ) ≤ 4 ∧
    ((∃ st, prepare_nested_base scenarioBase scenarioParams scenario_inner_lt = .ok st ∧
      st.nested.img.width = 1600 ∧ st.nested.img.height = 1200 ∧
      (∃ fr, make_frame st.nested scenarioParams 2 2 = .ok (fr, frameFileName 2) ∧
        fr.img.width = 800 ∧ fr.img.height = 600)) ∧
    (∃ s', Relation.ReflTransGen PoolStep (poolInit 5 3) s' ∧ s'.running = 0) ∧
    (∀ s', Relation.ReflTransGen PoolStep (poolInit 5 3) s' → s'.running = 0 →
      s'.files = ((List.range' 1 5).map frameFileName : List String) ∧
      ((List.range' 1 5).map frameFileName).Nodup ∧
      s'.qin = [] ∧ Multiset.card s'.qout = 5 + 3)) :=
  ⟨by decide, by decide, by norm_num, by norm_num,
    scenario_end_to_end 2 (by decide) (by decide) 2 (by norm_num) (by norm_num)⟩

